import Mathlib

/-!
Shallow embedding of the clinic attendance tracker (Django app `attendance`):
the QR time-window token scheme (`attendance/qr.py`), the clock-in/out
session state machine (`api_clock` in `attendance/views.py`), the per-shift
punctuality and coverage matcher and the KPI rate computation
(`manager_dashboard`), and the weekly roster replacement (`roster_week`).

Wall-clock instants (Python `time.time()` floats and timezone-aware
datetimes) are modelled as integers counting MILLISECONDS, so an instant
`t : ℤ` denotes the real time `t / 1000` seconds; float arithmetic is
idealised as exact arithmetic at millisecond resolution.  Durations that
the source expresses in seconds (window sizes, max ages) therefore appear
scaled by `1000`, and durations in minutes by `60000`.  Database tables
are modelled as lists or multisets of structures.
-/

namespace Clinic

/-- Python `int(a / b)` for integers `a` and positive `b`: the quotient
truncated toward zero.  (Lean integer `/` is Euclidean division, which for
a positive divisor rounds toward negative infinity, matching Python `//`.) -/
def pyTrunc (a b : ℤ) : ℤ := if 0 ≤ a then a / b else -((-a) / b)

/-- For `0 < b`, `b * (a / b)` lies in `(a - b, a]`. -/
theorem ediv_mul_bounds (a : ℤ) {b : ℤ} (hb : 0 < b) :
    a - b < b * (a / b) ∧ b * (a / b) ≤ a := by
  have h0 : b * (a / b) = a - a % b := by
    have := Int.ediv_add_emod a b
    linarith
  have h1 : 0 ≤ a % b := Int.emod_nonneg a (ne_of_gt hb)
  have h2 : a % b < b := Int.emod_lt_of_pos a hb
  constructor <;> [linarith; linarith]

/-- For `0 < b`, `b * pyTrunc a b` lies strictly within `b` of `a`. -/
theorem pyTrunc_bounds (a : ℤ) {b : ℤ} (hb : 0 < b) :
    a - b < b * pyTrunc a b ∧ b * pyTrunc a b < a + b := by
  unfold pyTrunc
  split
  · obtain ⟨h1, h2⟩ := ediv_mul_bounds a hb
    exact ⟨h1, by linarith⟩
  · obtain ⟨h1, h2⟩ := ediv_mul_bounds (-a) hb
    constructor <;> [linarith [mul_neg b ((-a) / b)]; linarith [mul_neg b ((-a) / b)]]

/-!  ## `attendance/qr.py`

A token produced by `signer.sign` with a Django `TimestampSigner` is the
string `payload ++ sep ++ base62(int(time.time())) ++ sep ++ hmac(...)`:
the signing second is embedded in the token, and the HMAC tag is a
deterministic injective function of the rest (for the fixed key and salt).
We therefore model a well-formed signed token by the pair of its payload
window index and its signing timestamp (whole seconds); a forged or
malformed token (the `BadSignature` case) is modelled as `none` at use
sites.  Two well-formed token strings are equal iff the modelled pairs
are equal. -/
structure QrToken where
  window : ℤ
  ts : ℤ
deriving DecidableEq

/-- Model of `make_qr_token` (`qr.py` lines 6-10): the signed payload is
`"qrwin:" ++ window` with `window = int(time.time() // window_seconds)`;
the signer stamps `int(time.time())` (whole seconds) into the token.
`now` is in milliseconds, `window_seconds` in seconds. -/
def make_qr_token (window_seconds : ℤ) (now : ℤ) : QrToken :=
  { window := now / (window_seconds * 1000), ts := pyTrunc now 1000 }

/-- Model of `validate_qr_token` (`qr.py` lines 24-29): `signer.unsign` with
`max_age` succeeds iff the signature checks out (`none` = `BadSignature`)
and `time.time() - timestamp ≤ max_age`; all failures collapse to
`false`.  The age comparison `now/1000 - ts ≤ max_age_seconds` is
written at millisecond scale. -/
def validate_qr_token (token : Option QrToken) (max_age_seconds : ℤ)
    (now : ℤ) : Bool :=
  match token with
  | none => false
  | some t => decide (now - 1000 * t.ts ≤ max_age_seconds * 1000)

/-- The `expires_in` field of `window_meta` (`qr.py` lines 12-22):
`end = (int(now // window_seconds) + 1) * window_seconds` (seconds),
`expires_in = max(0, int(end - now))`. -/
def window_meta_expires_in (window_seconds : ℤ) (now : ℤ) : ℤ :=
  let e := (now / (window_seconds * 1000) + 1) * window_seconds
  max 0 (pyTrunc (e * 1000 - now) 1000)

/-- Model of `token_expires_in` (`qr.py` lines 31-39): `0` if the token is invalid,
otherwise the seconds left in the CURRENT server window. -/
def token_expires_in (token : Option QrToken) (window_seconds : ℤ)
    (max_age_seconds : ℤ) (now : ℤ) : ℤ :=
  if validate_qr_token token max_age_seconds now then
    window_meta_expires_in window_seconds now
  else 0

/-- The `valid` field of `api_qr_check` (`views.py` lines 123-131):
`expires_in > 0`. -/
def api_qr_check_valid (token : Option QrToken) (now : ℤ) : Bool :=
  decide (token_expires_in token 60 70 now > 0)

/-- C6: with `windowSeconds = 60` and `maxAge = 70`, a token issued at any
instant `t` validates immediately, still validates 69 seconds later, and
no longer validates 71 seconds later; in particular a token issued right
at the start of window `w` remains acceptable exactly 10 seconds into
window `w + 1` and no longer. -/
theorem c6_token_validity_window :
    (∀ t : ℤ,
      validate_qr_token (some (make_qr_token 60 t)) 70 t = true ∧
      validate_qr_token (some (make_qr_token 60 t)) 70 (t + 69000) =
        true ∧
      validate_qr_token (some (make_qr_token 60 t)) 70 (t + 71000) =
        false) ∧
    (∀ w : ℤ,
      validate_qr_token (some (make_qr_token 60 (60000 * w))) 70
        (60000 * w + 70000) = true ∧
      validate_qr_token (some (make_qr_token 60 (60000 * w))) 70
        (60000 * w + 70001) = false) := by
  constructor
  · intro t
    obtain ⟨h1, h2⟩ := pyTrunc_bounds t (b := 1000) (by norm_num)
    unfold validate_qr_token make_qr_token
    refine ⟨by simp only [decide_eq_true_eq]; linarith, ?_, ?_⟩
    · simp only [decide_eq_true_eq]; linarith
    · simp only [decide_eq_false_iff_not, not_le]; linarith
  · intro w
    have hpt : pyTrunc (60000 * w) 1000 = 60 * w := by
      unfold pyTrunc
      split <;> omega
    unfold validate_qr_token make_qr_token
    rw [hpt]
    constructor
    · simp only [decide_eq_true_eq]; linarith
    · simp only [decide_eq_false_iff_not, not_le]; linarith

/-- C7 counterexample: the issuance instants `0` and `1` seconds fall in
the same 60-second window (window index 0), yet the two issued tokens are
NOT identical, because the signer embeds the issuance second in the
token string. -/
theorem c7_counterexample :
    (make_qr_token 60 0).window = (make_qr_token 60 1000).window ∧
    make_qr_token 60 0 ≠ make_qr_token 60 1000 := by
  constructor
  · decide
  · decide

/-- C7 amended: two issuances in the same window carry the same signed
payload (the window index is a deterministic function of the window
alone), but the full token strings coincide iff the two issuance instants
also truncate to the same whole second, since the signer stamps
`int(time.time())` into the token. -/
theorem c7_token_window_determinism (t₁ t₂ : ℤ)
    (hw : t₁ / 60000 = t₂ / 60000) :
    (make_qr_token 60 t₁).window = (make_qr_token 60 t₂).window ∧
    (make_qr_token 60 t₁ = make_qr_token 60 t₂ ↔
      pyTrunc t₁ 1000 = pyTrunc t₂ 1000) := by
  constructor
  · simpa [make_qr_token] using hw
  · constructor
    · intro h; exact congrArg QrToken.ts h
    · intro h
      simp only [make_qr_token, QrToken.mk.injEq]
      exact ⟨by simpa using hw, h⟩

/-- Witness for `c7_token_window_determinism` at instants 0 s and 1 s. -/
theorem c7_token_window_determinism_witness :
    (make_qr_token 60 0).window = (make_qr_token 60 1000).window ∧
    (make_qr_token 60 0 = make_qr_token 60 1000 ↔
      pyTrunc 0 1000 = pyTrunc 1000 1000) :=
  c7_token_window_determinism 0 1000 (by decide)

/-!  ## The per-shift punctuality and coverage matcher
(`manager_dashboard`, `views.py` lines 332-390, and `session_overlaps_shift`,
lines 701-706).  Datetimes are instants in milliseconds; a shift on a
given day is the pair of its start and end instants. -/

/-- Constant `GRACE_MINUTES` (`views.py` line 242). -/
def GRACE_MINUTES : ℤ := 15

/-- Constant `NO_SHOW_MINUTES` (`views.py` line 243). -/
def NO_SHOW_MINUTES : ℤ := 120

/-- Constant `EARLY_WINDOW_MINUTES` (`views.py` line 244). -/
def EARLY_WINDOW_MINUTES : ℤ := 60

/-- An `AttendanceSession` row as the matcher sees it: both timestamps are
nullable (`models.py` lines 32-36). -/
structure Session where
  clock_in_time : Option ℤ
  clock_out_time : Option ℤ
deriving DecidableEq

/-- Model of `session_overlaps_shift` (`views.py` lines 701-706). -/
def session_overlaps_shift (sess : Session) (shift_start_dt shift_end_dt
    now : ℤ) : Bool :=
  match sess.clock_in_time with
  | none => false
  | some in_time =>
    let out_time := sess.clock_out_time.getD now
    decide (in_time ≤ shift_end_dt ∧ out_time ≥ shift_start_dt)

/-- The punctuality scan (`views.py` lines 347-351): the first session in
list order whose non-null `clock_in_time` lies in
`[window_start, window_end]`; its clock-in becomes `matched_in`. -/
def punctuality_match (window_start window_end : ℤ) :
    List Session → Option ℤ
  | [] => none
  | sess :: rest =>
    match sess.clock_in_time with
    | some t =>
      if window_start ≤ t ∧ t ≤ window_end then some t
      else punctuality_match window_start window_end rest
    | none => punctuality_match window_start window_end rest

/-- Classification outcome of one scheduled shift. -/
inductive ShiftStatus
  | NO_SHOW
  | COVERED
  | ON_TIME
  | LATE
deriving DecidableEq

/-- One row of `punctual_rows` (`views.py` lines 356-390), restricted to
the classification fields.  `counts_on_time` records whether the branch
incremented the `on_time` counter. -/
structure ShiftResult where
  status : ShiftStatus
  in_time : Option ℤ
  minutes_late : Option ℤ
  counts_on_time : Bool
deriving DecidableEq

/-- The per-shift classification body (`views.py` lines 337-390):
`window_start = shift_start - EARLY_WINDOW`, `window_end = shift_start +
NO_SHOW_WINDOW`, punctuality match, coverage by any overlapping session,
then the `NO_SHOW` / `COVERED` / `ON_TIME` / `LATE` decision with
`minutes_late = max(0, int((matched_in - shift_start).total_seconds() //
60))`, i.e. the floored number of whole minutes, clamped below at 0. -/
def classify_shift (shift_start_dt shift_end_dt : ℤ)
    (emp_sessions : List Session) (now : ℤ) : ShiftResult :=
  let window_start := shift_start_dt - EARLY_WINDOW_MINUTES * 60000
  let window_end := shift_start_dt + NO_SHOW_MINUTES * 60000
  let matched_in := punctuality_match window_start window_end emp_sessions
  let covered := emp_sessions.any fun sess =>
    session_overlaps_shift sess shift_start_dt shift_end_dt now
  if ¬ covered then
    { status := .NO_SHOW, in_time := matched_in, minutes_late := none,
      counts_on_time := false }
  else
    match matched_in with
    | none =>
      { status := .COVERED, in_time := none, minutes_late := none,
        counts_on_time := true }
    | some t =>
      let diff_min : ℤ := (t - shift_start_dt) / 60000
      let minutes_late := max 0 diff_min
      if minutes_late ≤ GRACE_MINUTES then
        { status := .ON_TIME, in_time := some t,
          minutes_late := some minutes_late, counts_on_time := true }
      else
        { status := .LATE, in_time := some t,
          minutes_late := some minutes_late, counts_on_time := false }

/-- The coverage condition of the spec: some session of the list has a
non-null clock-in at or before shift end, and its clock-out (or `now`
while it is still open) at or after shift start. -/
def CoveredSpec (shift_start shift_end now : ℤ)
    (sessions : List Session) : Prop :=
  ∃ s ∈ sessions, ∃ tin, s.clock_in_time = some tin ∧
    tin ≤ shift_end ∧ shift_start ≤ s.clock_out_time.getD now

/-- The punctuality-window condition of the spec: some session of the
list has a non-null clock-in inside
`[shift_start - 60 min, shift_start + 120 min]`. -/
def MatchSpec (shift_start : ℤ) (sessions : List Session) : Prop :=
  ∃ s ∈ sessions, ∃ tin, s.clock_in_time = some tin ∧
    shift_start - 60 * 60000 ≤ tin ∧ tin ≤ shift_start + 120 * 60000

/-- The coverage scan of the code agrees with `CoveredSpec`. -/
theorem any_overlap_iff (shift_start shift_end now : ℤ)
    (sessions : List Session) :
    (sessions.any fun sess =>
        session_overlaps_shift sess shift_start shift_end now) = true ↔
      CoveredSpec shift_start shift_end now sessions := by
  rw [List.any_eq_true]
  unfold CoveredSpec
  constructor
  · rintro ⟨s, hmem, hov⟩
    refine ⟨s, hmem, ?_⟩
    unfold session_overlaps_shift at hov
    rcases h : s.clock_in_time with _ | tin
    · rw [h] at hov; simp at hov
    · rw [h] at hov
      simp only [decide_eq_true_eq] at hov
      exact ⟨tin, rfl, hov.1, hov.2⟩
  · rintro ⟨s, hmem, tin, hin, h1, h2⟩
    refine ⟨s, hmem, ?_⟩
    unfold session_overlaps_shift
    rw [hin]
    simp only [decide_eq_true_eq]
    exact ⟨h1, h2⟩

/-- The punctuality scan finds nothing iff no session clocks in inside
the window. -/
theorem punctuality_match_eq_none_iff (ws we : ℤ) (l : List Session) :
    punctuality_match ws we l = none ↔
      ∀ s ∈ l, ∀ t, s.clock_in_time = some t → ¬(ws ≤ t ∧ t ≤ we) := by
  induction l with
  | nil => simp [punctuality_match]
  | cons sess rest ih =>
    rcases hc : sess.clock_in_time with _ | t
    · simp only [punctuality_match, hc, List.mem_cons]
      constructor
      · rintro hr s (rfl | hs) u hu
        · rw [hc] at hu; cases hu
        · exact (ih.mp hr) s hs u hu
      · intro hall
        exact ih.mpr fun s hs u hu => hall s (Or.inr hs) u hu
    · simp only [punctuality_match, hc, List.mem_cons]
      by_cases hcond : ws ≤ t ∧ t ≤ we
      · rw [if_pos hcond]
        exact iff_of_false (by simp)
          fun hall => hall sess (Or.inl rfl) t hc hcond
      · rw [if_neg hcond]
        constructor
        · rintro hr s (rfl | hs) u hu
          · rw [hc] at hu; injection hu with hu; subst hu; exact hcond
          · exact (ih.mp hr) s hs u hu
        · intro hall
          exact ih.mpr fun s hs u hu => hall s (Or.inr hs) u hu

/-- What the punctuality scan returns is a clock-in of some session of
the list, inside the window. -/
theorem punctuality_match_some (ws we : ℤ) (l : List Session) (t : ℤ)
    (h : punctuality_match ws we l = some t) :
    (∃ s ∈ l, s.clock_in_time = some t) ∧ ws ≤ t ∧ t ≤ we := by
  induction l with
  | nil => simp [punctuality_match] at h
  | cons sess rest ih =>
    rcases hc : sess.clock_in_time with _ | u
    · simp only [punctuality_match, hc] at h
      obtain ⟨⟨s, hs, hst⟩, hb⟩ := ih h
      exact ⟨⟨s, List.mem_cons_of_mem _ hs, hst⟩, hb⟩
    · simp only [punctuality_match, hc] at h
      by_cases hcond : ws ≤ u ∧ u ≤ we
      · rw [if_pos hcond] at h
        injection h with h; subst h
        exact ⟨⟨sess, List.mem_cons_self _ _, hc⟩, hcond⟩
      · rw [if_neg hcond] at h
        obtain ⟨⟨s, hs, hst⟩, hb⟩ := ih h
        exact ⟨⟨s, List.mem_cons_of_mem _ hs, hst⟩, hb⟩

/-- On a list sorted ascending by clock-in time, the punctuality scan
returns the EARLIEST clock-in inside the window. -/
theorem punctuality_match_min (ws we : ℤ) (l : List Session) (t : ℤ)
    (hsorted : l.Pairwise fun a b => ∀ ta tb,
      a.clock_in_time = some ta → b.clock_in_time = some tb → ta ≤ tb)
    (h : punctuality_match ws we l = some t) :
    ∀ s ∈ l, ∀ u, s.clock_in_time = some u → ws ≤ u → u ≤ we → t ≤ u := by
  induction l with
  | nil => simp [punctuality_match] at h
  | cons sess rest ih =>
    obtain ⟨hhead, htail⟩ := List.pairwise_cons.mp hsorted
    rcases hc : sess.clock_in_time with _ | v
    · simp only [punctuality_match, hc] at h
      intro s hs u hu
      rcases List.mem_cons.mp hs with rfl | hs'
      · rw [hc] at hu; cases hu
      · exact ih htail h s hs' u hu
    · simp only [punctuality_match, hc] at h
      by_cases hcond : ws ≤ v ∧ v ≤ we
      · rw [if_pos hcond] at h
        injection h with h; subst h
        intro s hs u hu h1 h2
        rcases List.mem_cons.mp hs with rfl | hs'
        · rw [hc] at hu; injection hu with hu; omega
        · exact hhead s hs' v u hc hu
      · rw [if_neg hcond] at h
        intro s hs u hu h1 h2
        rcases List.mem_cons.mp hs with rfl | hs'
        · rw [hc] at hu; injection hu with hu; subst hu
          exact absurd ⟨h1, h2⟩ hcond
        · exact ih htail h s hs' u hu h1 h2

/-- C1: classification of one approved shift against the (ascending)
session list.  `NO_SHOW` iff no session covers the shift; covered with no
clock-in inside `[start - 60 min, start + 120 min]` gives `COVERED`,
counted as on-time; otherwise the earliest in-window clock-in is matched,
`minutes_late = max(0, floor((matched_in - shift_start) / 60 s))`, and
the shift is `ON_TIME` iff that is at most 15 and `LATE` iff it
exceeds 15. -/
theorem c1_shift_matcher_classification
    (shift_start shift_end now : ℤ) (sessions : List Session)
    (hsorted : sessions.Pairwise fun a b => ∀ ta tb,
      a.clock_in_time = some ta → b.clock_in_time = some tb → ta ≤ tb) :
    ((classify_shift shift_start shift_end sessions now).status =
        .NO_SHOW ↔ ¬ CoveredSpec shift_start shift_end now sessions) ∧
    (CoveredSpec shift_start shift_end now sessions →
      ¬ MatchSpec shift_start sessions →
      (classify_shift shift_start shift_end sessions now).status =
          .COVERED ∧
      (classify_shift shift_start shift_end sessions now).counts_on_time =
          true) ∧
    (CoveredSpec shift_start shift_end now sessions →
      MatchSpec shift_start sessions →
      ∃ tin,
        (classify_shift shift_start shift_end sessions now).in_time =
            some tin ∧
        (∃ s ∈ sessions, s.clock_in_time = some tin) ∧
        shift_start - 60 * 60000 ≤ tin ∧
        tin ≤ shift_start + 120 * 60000 ∧
        (∀ s ∈ sessions, ∀ u, s.clock_in_time = some u →
          shift_start - 60 * 60000 ≤ u → u ≤ shift_start + 120 * 60000 →
          tin ≤ u) ∧
        (classify_shift shift_start shift_end sessions now).minutes_late =
            some (max 0 ((tin - shift_start) / 60000)) ∧
        ((classify_shift shift_start shift_end sessions now).status =
            .ON_TIME ↔ max 0 ((tin - shift_start) / 60000) ≤ 15) ∧
        ((classify_shift shift_start shift_end sessions now).status =
            .LATE ↔ 15 < max 0 ((tin - shift_start) / 60000))) := by
  have hws : shift_start - EARLY_WINDOW_MINUTES * 60000 =
      shift_start - 60 * 60000 := by norm_num [EARLY_WINDOW_MINUTES]
  have hwe : shift_start + NO_SHOW_MINUTES * 60000 =
      shift_start + 120 * 60000 := by norm_num [NO_SHOW_MINUTES]
  have hcov := any_overlap_iff shift_start shift_end now sessions
  unfold classify_shift
  rw [hws, hwe]
  by_cases hc : (sessions.any fun sess =>
      session_overlaps_shift sess shift_start shift_end now) = true
  · rw [if_neg (not_not_intro hc)]
    have hcovP : CoveredSpec shift_start shift_end now sessions :=
      hcov.mp hc
    rcases hm : punctuality_match (shift_start - 60 * 60000)
        (shift_start + 120 * 60000) sessions with _ | t
    all_goals dsimp only
    · refine ⟨iff_of_false (by simp) (not_not_intro hcovP),
        fun _ _ => ⟨rfl, rfl⟩, fun _ hmatch => ?_⟩
      exfalso
      obtain ⟨s, hs, tin, h1, h2, h3⟩ := hmatch
      exact (punctuality_match_eq_none_iff _ _ _).mp hm s hs tin h1 ⟨h2, h3⟩
    · obtain ⟨hex, hlo, hhi⟩ := punctuality_match_some _ _ _ _ hm
      have hmin := punctuality_match_min _ _ _ _ hsorted hm
      have hmatchP : MatchSpec shift_start sessions := by
        obtain ⟨s, hs, hst⟩ := hex
        exact ⟨s, hs, t, hst, hlo, hhi⟩
      have hg15 : GRACE_MINUTES = (15 : ℤ) := by norm_num [GRACE_MINUTES]
      by_cases hg : max 0 ((t - shift_start) / 60000) ≤ GRACE_MINUTES
      · rw [if_pos hg]
        rw [hg15] at hg
        exact ⟨iff_of_false (by simp) (not_not_intro hcovP),
          fun _ hnm => absurd hmatchP hnm,
          fun _ _ => ⟨t, rfl, hex, hlo, hhi, hmin, rfl,
            iff_of_true rfl hg, iff_of_false (by simp) (by omega)⟩⟩
      · rw [if_neg hg]
        rw [hg15] at hg
        exact ⟨iff_of_false (by simp) (not_not_intro hcovP),
          fun _ hnm => absurd hmatchP hnm,
          fun _ _ => ⟨t, rfl, hex, hlo, hhi, hmin, rfl,
            iff_of_false (by simp) (by omega),
            iff_of_true rfl (by omega)⟩⟩
  · rw [if_pos hc]
    have hncov : ¬ CoveredSpec shift_start shift_end now sessions :=
      fun hp => hc (hcov.mpr hp)
    exact ⟨iff_of_true rfl hncov, fun hp => absurd hp hncov,
      fun hp => absurd hp hncov⟩

/-- Witness for `c1_shift_matcher_classification`: shift 09:00-17:00,
one session 09:10-17:00, observed at 17:00. -/
theorem c1_shift_matcher_classification_witness :
    ((classify_shift 32400000 61200000 [⟨some 33000000, some 61200000⟩]
        61200000).status = .NO_SHOW ↔
      ¬ CoveredSpec 32400000 61200000 61200000
        [⟨some 33000000, some 61200000⟩]) ∧
    (CoveredSpec 32400000 61200000 61200000
        [⟨some 33000000, some 61200000⟩] →
      ¬ MatchSpec 32400000 [⟨some 33000000, some 61200000⟩] →
      (classify_shift 32400000 61200000 [⟨some 33000000, some 61200000⟩]
          61200000).status = .COVERED ∧
      (classify_shift 32400000 61200000 [⟨some 33000000, some 61200000⟩]
          61200000).counts_on_time = true) ∧
    (CoveredSpec 32400000 61200000 61200000
        [⟨some 33000000, some 61200000⟩] →
      MatchSpec 32400000 [⟨some 33000000, some 61200000⟩] →
      ∃ tin,
        (classify_shift 32400000 61200000 [⟨some 33000000, some 61200000⟩]
            61200000).in_time = some tin ∧
        (∃ s ∈ [(⟨some 33000000, some 61200000⟩ : Session)],
          s.clock_in_time = some tin) ∧
        32400000 - 60 * 60000 ≤ tin ∧
        tin ≤ 32400000 + 120 * 60000 ∧
        (∀ s ∈ [(⟨some 33000000, some 61200000⟩ : Session)], ∀ u,
          s.clock_in_time = some u → 32400000 - 60 * 60000 ≤ u →
          u ≤ 32400000 + 120 * 60000 → tin ≤ u) ∧
        (classify_shift 32400000 61200000 [⟨some 33000000, some 61200000⟩]
            61200000).minutes_late =
          some (max 0 ((tin - 32400000) / 60000)) ∧
        ((classify_shift 32400000 61200000 [⟨some 33000000, some 61200000⟩]
            61200000).status = .ON_TIME ↔
          max 0 ((tin - 32400000) / 60000) ≤ 15) ∧
        ((classify_shift 32400000 61200000 [⟨some 33000000, some 61200000⟩]
            61200000).status = .LATE ↔
          15 < max 0 ((tin - 32400000) / 60000))) :=
  c1_shift_matcher_classification 32400000 61200000 61200000
    [⟨some 33000000, some 61200000⟩] (by simp)

/-- C2 counterexample: shift 09:00-17:00 (instants in milliseconds from
midnight), one session clocking in at 09:10 and out at 17:00.  The code
classifies it `ON_TIME` but reports `minutes_late = 10`, not the claimed
clamped `0`: the `max(0, _)` clamp only lifts NEGATIVE (early) values
to zero. -/
theorem c2_counterexample :
    classify_shift 32400000 61200000 [⟨some 33000000, some 61200000⟩]
        61200000 =
      { status := .ON_TIME, in_time := some 33000000,
        minutes_late := some 10, counts_on_time := true } ∧
    (some (10 : ℤ) ≠ some 0) := by
  constructor
  · decide
  · decide

/-- C2 amended: with shift 09:00-17:00, GRACE=15, EARLY_WINDOW=60,
NO_SHOW_WINDOW=120, a covered session whose matched clock-in is 09:10 is
classified `ON_TIME` with reported `minutes_late = 10` (the clamp to 0
applies only to clock-ins before shift start, e.g. 08:50); a matched
clock-in at 09:20 is classified `LATE` with `minutes_late = 20`. -/
theorem c2_example_classifications :
    classify_shift 32400000 61200000 [⟨some 33000000, some 61200000⟩]
        61200000 =
      { status := .ON_TIME, in_time := some 33000000,
        minutes_late := some 10, counts_on_time := true } ∧
    classify_shift 32400000 61200000 [⟨some 31800000, some 61200000⟩]
        61200000 =
      { status := .ON_TIME, in_time := some 31800000,
        minutes_late := some 0, counts_on_time := true } ∧
    classify_shift 32400000 61200000 [⟨some 33600000, some 61200000⟩]
        61200000 =
      { status := .LATE, in_time := some 33600000,
        minutes_late := some 20, counts_on_time := false } := by
  refine ⟨by decide, by decide, by decide⟩

/-!  ## The clock-in/out state machine
(`api_clock`, `views.py` lines 134-235, over the models of `models.py`).

`Employee.check_pin` compares the candidate against the stored secret via
a password hash (`models.py` lines 25-26); we model the hash comparison
as string equality with the stored raw PIN.  The photo is modelled by its
byte size.  The photo recompression (`recompress_image`) only transforms
the stored photo bytes and is irrelevant to every claim, so the stored
photo reference is dropped from the modelled event row. -/

/-- An `Employee` row (`models.py` lines 16-26). -/
structure MEmployee where
  id : ℕ
  is_active : Bool
  pin : String
deriving DecidableEq

/-- An `AttendanceSession` row with its primary key (`models.py` lines
32-36). -/
structure MSession where
  sid : ℕ
  employee_id : ℕ
  clock_in_time : Option ℤ
  clock_out_time : Option ℤ
  is_open : Bool
deriving DecidableEq

/-- An `AttendanceEvent` row, restricted to the fields the claims
mention (`models.py` lines 42-64). -/
structure MEvent where
  event_type : String
  session_sid : ℕ
  subject_employee : ℕ
  witness_employee : Option ℕ
  is_proxy : Bool
  note : String
deriving DecidableEq

/-- The database state touched by a punch: the session table (most
recent row first, so that `order_by("-id").first()` is `List.find?`),
the next session primary key, and the event table (most recent row
first). -/
structure ClockDB where
  sessions : List MSession
  next_sid : ℕ
  events : List MEvent
deriving DecidableEq

/-- The empty store. -/
def emptyDB : ClockDB := { sessions := [], next_sid := 0, events := [] }

/-- The error kinds of the punch path, in source order of the guards. -/
inductive ClockError
  | InvalidAction
  | TokenExpired
  | PhotoMissing
  | PhotoTooLarge
  | EmployeeNotFound
  | WrongSecret
  | WitnessRequired
  | WitnessNotFound
  | WrongWitnessSecret
  | WitnessIsSubject
  | AlreadyClockedIn
  | NoOpenSession
deriving DecidableEq

/-- A `POST /api/clock` request (`views.py` lines 137-144).  Empty-string
ids are modelled as `none`; the photo is its size in bytes, `none` when
absent. -/
structure PunchRequest where
  action : String
  qr_token : Option QrToken
  subject_employee_id : ℕ
  subject_pin : String
  is_proxy : Bool
  witness_employee_id : Option ℕ
  witness_pin : String
  photo : Option ℕ
deriving DecidableEq

/-- Constant `MAX_UPLOAD` (`views.py` line 157). -/
def MAX_UPLOAD : ℕ := 10 * 1024 * 1024

/-- Lookup `Employee.objects.get(id=..., is_active=True)` over the employee
table. -/
def find_employee (env : List MEmployee) (eid : ℕ) : Option MEmployee :=
  env.find? fun e => e.id == eid && e.is_active

/-- The witness checks of the proxy path (`views.py` lines 169-181),
returning the witness employee id recorded on the event. -/
def check_witness (env : List MEmployee) (req : PunchRequest)
    (subject : MEmployee) : Except ClockError (Option ℕ) :=
  if ¬ req.is_proxy then .ok none
  else
    match req.witness_employee_id with
    | none => .error .WitnessRequired
    | some wid =>
      if req.witness_pin = "" then .error .WitnessRequired
      else
        match find_employee env wid with
        | none => .error .WitnessNotFound
        | some w =>
          if req.witness_pin ≠ w.pin then .error .WrongWitnessSecret
          else if w.id = subject.id then .error .WitnessIsSubject
          else .ok (some w.id)

/-- The guard of the IN branch (`views.py` line 192): an open session
that blocks a new clock-in (`clock_in_time` set, `clock_out_time`
unset).  The OUT branch (line 216) proceeds exactly when the same
condition holds of the found open session. -/
def blocks_in : Option MSession → Bool
  | none => false
  | some o => o.clock_in_time.isSome && o.clock_out_time.isNone

/-- The state-machine tail of `api_clock` (`views.py` lines 188-235),
after all gating checks have passed: select the most recent open session
of the subject, then create (IN) or close (OUT) and append exactly one
event row. -/
def clock_core (subject_id : ℕ) (action : String) (witness : Option ℕ)
    (is_proxy : Bool) (now : ℤ) (db : ClockDB) :
    Except ClockError ClockDB :=
  let open_session := db.sessions.find? fun s =>
    s.employee_id == subject_id && s.is_open
  if action = "IN" then
    if blocks_in open_session then .error .AlreadyClockedIn
    else
      let session : MSession :=
        { sid := db.next_sid, employee_id := subject_id,
          clock_in_time := some now, clock_out_time := none,
          is_open := true }
      let ev : MEvent :=
        { event_type := "IN", session_sid := session.sid,
          subject_employee := subject_id, witness_employee := witness,
          is_proxy := is_proxy,
          note := if is_proxy then "PROXY" else "" }
      .ok { sessions := session :: db.sessions,
            next_sid := db.next_sid + 1, events := ev :: db.events }
  else
    match open_session with
    | none => .error .NoOpenSession
    | some o =>
      if o.clock_in_time.isNone || o.clock_out_time.isSome then
        .error .NoOpenSession
      else
        let ev : MEvent :=
          { event_type := "OUT", session_sid := o.sid,
            subject_employee := subject_id, witness_employee := witness,
            is_proxy := is_proxy,
            note := if is_proxy then "PROXY" else "" }
        .ok { sessions := db.sessions.map fun s =>
                if s.sid = o.sid then
                  { s with clock_out_time := some now, is_open := false }
                else s,
              next_sid := db.next_sid, events := ev :: db.events }

/-- Model of `api_clock` (`views.py` lines 134-235): the gating checks in source
order, short-circuiting on the first failure, then the state-machine
tail.  `now` plays both roles of `time.time()` (token age) and
`timezone.now()` (stamped times). -/
def api_clock (env : List MEmployee) (req : PunchRequest) (now : ℤ)
    (db : ClockDB) : Except ClockError ClockDB :=
  if req.action ≠ "IN" ∧ req.action ≠ "OUT" then .error .InvalidAction
  else if token_expires_in req.qr_token 60 70 now ≤ 0 then
    .error .TokenExpired
  else
    match req.photo with
    | none => .error .PhotoMissing
    | some size =>
      if size > MAX_UPLOAD then .error .PhotoTooLarge
      else
        match find_employee env req.subject_employee_id with
        | none => .error .EmployeeNotFound
        | some subject =>
          if req.subject_pin ≠ subject.pin then .error .WrongSecret
          else
            match check_witness env req subject with
            | .error e => .error e
            | .ok witness =>
              clock_core subject.id req.action witness req.is_proxy now db

/-- One punch against the store: on failure the store is unchanged. -/
structure PunchStep where
  env : List MEmployee
  req : PunchRequest
  now : ℤ

/-- Apply one punch, keeping the old store when the punch is rejected. -/
def punch_step (db : ClockDB) (st : PunchStep) : ClockDB :=
  match api_clock st.env st.req st.now db with
  | .ok db' => db'
  | .error _ => db

/-- Run a sequence of punches from the empty store. -/
def run_punches (steps : List PunchStep) : ClockDB :=
  steps.foldl punch_step emptyDB

/-- Number of open sessions of one employee in the store. -/
def open_count (db : ClockDB) (emp : ℕ) : ℕ :=
  db.sessions.countP fun s => s.employee_id == emp && s.is_open

/-- Well-formedness of a session row: while open it has a clock-in and
no clock-out. -/
def SessionWF (s : MSession) : Prop :=
  s.is_open = true → s.clock_in_time.isSome = true ∧ s.clock_out_time = none

/-- The store invariant: at most one open session per employee, and all
open sessions are well-formed. -/
def DBInv (db : ClockDB) : Prop :=
  (∀ emp, open_count db emp ≤ 1) ∧ ∀ s ∈ db.sessions, SessionWF s

theorem emptyDB_inv : DBInv emptyDB := by
  constructor
  · intro emp; simp [open_count, emptyDB]
  · intro s hs; simp [emptyDB] at hs

/-- The state-machine tail preserves the store invariant. -/
theorem clock_core_inv {subject_id : ℕ} {action : String}
    {witness : Option ℕ} {is_proxy : Bool} {now : ℤ} {db db' : ClockDB}
    (hinv : DBInv db)
    (h : clock_core subject_id action witness is_proxy now db = .ok db') :
    DBInv db' := by
  obtain ⟨hcount, hwf⟩ := hinv
  unfold clock_core at h
  by_cases hact : action = "IN"
  · rw [if_pos hact] at h
    rcases hfind : db.sessions.find? fun s =>
        s.employee_id == subject_id && s.is_open with _ | o
    · rw [hfind] at h
      rw [if_neg (by simp [blocks_in])] at h
      injection h with h; subst h
      constructor
      · intro emp
        rw [open_count, List.countP_cons]
        have hzero : (db.sessions.countP fun s =>
            s.employee_id == emp && s.is_open) ≤ 1 := hcount emp
        by_cases hemp : subject_id = emp
        · have hnone : ∀ s ∈ db.sessions,
              ¬((s.employee_id == emp && s.is_open) = true) := by
            intro s hs hp
            have := List.find?_eq_none.mp hfind s hs
            rw [← hemp] at hp
            exact this hp
          have : (db.sessions.countP fun s =>
              s.employee_id == emp && s.is_open) = 0 :=
            List.countP_eq_zero.mpr hnone
          simp only [open_count] at this ⊢
          simp [this, hemp]
        · have : ((⟨db.next_sid, subject_id, some now, none, true⟩ :
              MSession).employee_id == emp && true) = false := by
            simp [hemp]
          simp only [this]
          simpa [open_count] using hzero
      · intro s hs
        rcases List.mem_cons.mp hs with rfl | hs'
        · intro _; exact ⟨rfl, rfl⟩
        · exact hwf s hs'
    · rw [hfind] at h
      have hopen : o.is_open = true := by
        have := List.find?_some hfind
        exact (Bool.and_elim_right this)
      obtain ⟨hin, hout⟩ := hwf o (List.mem_of_find?_eq_some hfind) hopen
      rw [if_pos (by simp [blocks_in, hin, hout])] at h
      cases h
  · rw [if_neg hact] at h
    rcases hfind : db.sessions.find? fun s =>
        s.employee_id == subject_id && s.is_open with _ | o
    · rw [hfind] at h; dsimp only at h; cases h
    · rw [hfind] at h
      dsimp only at h
      by_cases hguard : (o.clock_in_time.isNone || o.clock_out_time.isSome)
          = true
      · rw [if_pos hguard] at h; cases h
      · rw [if_neg hguard] at h
        injection h with h; subst h
        constructor
        · intro emp
          rw [open_count, List.countP_map]
          calc db.sessions.countP ((fun s =>
                  s.employee_id == emp && s.is_open) ∘ fun s =>
                  if s.sid = o.sid then
                    { s with clock_out_time := some now, is_open := false }
                  else s)
              ≤ db.sessions.countP fun s =>
                  s.employee_id == emp && s.is_open := by
                apply List.countP_mono_left
                intro s _ hp
                simp only [Function.comp] at hp
                by_cases hsid : s.sid = o.sid
                · rw [if_pos hsid] at hp; simp at hp
                · rw [if_neg hsid] at hp; exact hp
            _ ≤ 1 := hcount emp
        · intro s hs
          obtain ⟨u, hu, hus⟩ := List.mem_map.mp hs
          by_cases hsid : u.sid = o.sid
          · rw [if_pos hsid] at hus
            intro hop; rw [← hus] at hop; simp at hop
          · rw [if_neg hsid] at hus
            exact hus ▸ hwf u hu

/-- A successful `api_clock` call is a successful run of the
state-machine tail for the looked-up subject. -/
theorem api_clock_ok_core {env : List MEmployee} {req : PunchRequest}
    {now : ℤ} {db db' : ClockDB}
    (h : api_clock env req now db = .ok db') :
    ∃ subject witness,
      find_employee env req.subject_employee_id = some subject ∧
      clock_core subject.id req.action witness req.is_proxy now db =
        .ok db' := by
  unfold api_clock at h
  split at h
  · cases h
  · split at h
    · cases h
    · split at h
      · cases h
      · split at h
        · cases h
        · split at h
          · cases h
          · rename_i subject hsubj
            split at h
            · cases h
            · split at h
              · cases h
              · rename_i witness hwit
                exact ⟨subject, witness, hsubj, h⟩

/-- One punch (accepted or rejected) preserves the store invariant. -/
theorem punch_step_inv {db : ClockDB} {st : PunchStep} (hinv : DBInv db) :
    DBInv (punch_step db st) := by
  unfold punch_step
  rcases happ : api_clock st.env st.req st.now db with _ | db'
  · exact hinv
  · obtain ⟨subject, witness, _, hcore⟩ := api_clock_ok_core happ
    exact clock_core_inv hinv hcore

theorem run_punches_inv (steps : List PunchStep) :
    DBInv (run_punches steps) := by
  have hgen : ∀ (l : List PunchStep) (db : ClockDB), DBInv db →
      DBInv (l.foldl punch_step db) := by
    intro l
    induction l with
    | nil => intro db hdb; exact hdb
    | cons st rest ih =>
      intro db hdb
      exact ih (punch_step db st) (punch_step_inv hdb)
  exact hgen steps emptyDB emptyDB_inv

/-- C3: in every store reachable from the empty store by a sequence of
punch requests, each employee has at most one open session. -/
theorem c3_at_most_one_open_session (steps : List PunchStep) (emp : ℕ) :
    open_count (run_punches steps) emp ≤ 1 :=
  (run_punches_inv steps).1 emp

/-- When every gating check passes, `api_clock` is the state-machine
tail on the looked-up subject. -/
theorem api_clock_gates_pass {env : List MEmployee} {req : PunchRequest}
    {now : ℤ} (db : ClockDB) {subject : MEmployee} {witness : Option ℕ}
    (hact : req.action = "IN" ∨ req.action = "OUT")
    (htok : 0 < token_expires_in req.qr_token 60 70 now)
    (hphoto : ∃ size, req.photo = some size ∧ size ≤ MAX_UPLOAD)
    (hsubj : find_employee env req.subject_employee_id = some subject)
    (hpin : req.subject_pin = subject.pin)
    (hwit : check_witness env req subject = .ok witness) :
    api_clock env req now db =
      clock_core subject.id req.action witness req.is_proxy now db := by
  obtain ⟨size, hph, hsz⟩ := hphoto
  unfold api_clock
  rw [if_neg (by rcases hact with h | h <;> simp [h])]
  rw [if_neg (by omega)]
  rw [hph]
  dsimp only
  rw [if_neg (by omega)]
  rw [hsubj]
  dsimp only
  rw [if_neg (by simp [hpin])]
  rw [hwit]

/-- C4: with all gating checks passing, the punch state machine behaves
as specified: IN against an existing open session is rejected with
`AlreadyClockedIn` and leaves the store unchanged; OUT with no open
session is rejected with `NoOpenSession` and leaves the store unchanged
(so a subsequent IN still applies to the unchanged store); IN with no
open session creates a new open session with `clock_in_time = now`
together with its IN event; OUT against the found open session closes
exactly that session, stamping `clock_out_time = now` and
`is_open = false`, together with its OUT event. -/
theorem c4_punch_state_machine
    (env : List MEmployee) (req : PunchRequest) (now : ℤ) (db : ClockDB)
    (subject : MEmployee) (witness : Option ℕ)
    (hwf : ∀ s ∈ db.sessions, SessionWF s)
    (htok : 0 < token_expires_in req.qr_token 60 70 now)
    (hphoto : ∃ size, req.photo = some size ∧ size ≤ MAX_UPLOAD)
    (hsubj : find_employee env req.subject_employee_id = some subject)
    (hpin : req.subject_pin = subject.pin)
    (hwit : check_witness env req subject = .ok witness) :
    (req.action = "IN" →
      (∃ s ∈ db.sessions, s.employee_id = subject.id ∧ s.is_open = true) →
      api_clock env req now db = .error .AlreadyClockedIn ∧
      punch_step db ⟨env, req, now⟩ = db) ∧
    (req.action = "OUT" →
      (∀ s ∈ db.sessions, s.employee_id = subject.id →
        s.is_open = false) →
      api_clock env req now db = .error .NoOpenSession ∧
      punch_step db ⟨env, req, now⟩ = db) ∧
    (req.action = "IN" →
      (∀ s ∈ db.sessions, s.employee_id = subject.id →
        s.is_open = false) →
      api_clock env req now db = .ok
        { sessions :=
            { sid := db.next_sid, employee_id := subject.id,
              clock_in_time := some now, clock_out_time := none,
              is_open := true } :: db.sessions,
          next_sid := db.next_sid + 1,
          events :=
            { event_type := "IN", session_sid := db.next_sid,
              subject_employee := subject.id,
              witness_employee := witness, is_proxy := req.is_proxy,
              note := if req.is_proxy then "PROXY" else "" } ::
              db.events }) ∧
    (req.action = "OUT" → ∀ o,
      db.sessions.find?
        (fun s => s.employee_id == subject.id && s.is_open) = some o →
      api_clock env req now db = .ok
        { sessions := db.sessions.map fun s =>
            if s.sid = o.sid then
              { s with clock_out_time := some now, is_open := false }
            else s,
          next_sid := db.next_sid,
          events :=
            { event_type := "OUT", session_sid := o.sid,
              subject_employee := subject.id,
              witness_employee := witness, is_proxy := req.is_proxy,
              note := if req.is_proxy then "PROXY" else "" } ::
              db.events }) := by
  refine ⟨?_, ?_, ?_, ?_⟩
  · intro hin hex
    have hgate := api_clock_gates_pass db (Or.inl hin) htok hphoto hsubj
      hpin hwit
    obtain ⟨s, hs, hemp, hop⟩ := hex
    have hsome : (db.sessions.find? fun s =>
        s.employee_id == subject.id && s.is_open).isSome := by
      rw [List.find?_isSome]
      exact ⟨s, hs, by simp [hemp, hop]⟩
    rcases hfind : db.sessions.find? fun s =>
        s.employee_id == subject.id && s.is_open with _ | o
    · rw [hfind] at hsome; cases hsome
    · have hp := List.find?_some hfind
      have hop' : o.is_open = true := Bool.and_elim_right hp
      obtain ⟨hin', hout'⟩ :=
        hwf o (List.mem_of_find?_eq_some hfind) hop'
      have herr : api_clock env req now db = .error .AlreadyClockedIn := by
        rw [hgate]
        unfold clock_core
        rw [hfind, if_pos hin]
        rw [if_pos (by simp [blocks_in, hin', hout'])]
      exact ⟨herr, by simp [punch_step, herr]⟩
  · intro hout hall
    have hgate := api_clock_gates_pass db (Or.inr hout) htok hphoto hsubj
      hpin hwit
    have hfind : (db.sessions.find? fun s =>
        s.employee_id == subject.id && s.is_open) = none := by
      rw [List.find?_eq_none]
      intro s hs hp
      simp only [Bool.and_eq_true, beq_iff_eq] at hp
      exact absurd (hall s hs hp.1) (by simp [hp.2])
    have herr : api_clock env req now db = .error .NoOpenSession := by
      rw [hgate]
      unfold clock_core
      rw [hfind, if_neg (by simp [hout])]
    exact ⟨herr, by simp [punch_step, herr]⟩
  · intro hin hall
    have hgate := api_clock_gates_pass db (Or.inl hin) htok hphoto hsubj
      hpin hwit
    have hfind : (db.sessions.find? fun s =>
        s.employee_id == subject.id && s.is_open) = none := by
      rw [List.find?_eq_none]
      intro s hs hp
      simp only [Bool.and_eq_true, beq_iff_eq] at hp
      exact absurd (hall s hs hp.1) (by simp [hp.2])
    rw [hgate]
    unfold clock_core
    rw [hfind, if_pos hin, if_neg (by simp [blocks_in])]
  · intro hout o hfind
    have hgate := api_clock_gates_pass db (Or.inr hout) htok hphoto hsubj
      hpin hwit
    have hp := List.find?_some hfind
    have hop' : o.is_open = true := Bool.and_elim_right hp
    obtain ⟨hin', hout'⟩ := hwf o (List.mem_of_find?_eq_some hfind) hop'
    have hni : o.clock_in_time ≠ none := by
      intro hn; rw [hn] at hin'; cases hin'
    rw [hgate]
    unfold clock_core
    rw [hfind, if_neg (by simp [hout])]
    dsimp only
    rw [if_neg (by simp [hni, hout'])]

/-- Witness for `c4_punch_state_machine`: one active employee with PIN
"123456", a valid token, no proxy, and a store holding one open session
of that employee; the IN punch is rejected with `AlreadyClockedIn` and
the store is unchanged. -/
theorem c4_punch_state_machine_witness :
    Clinic.api_clock [⟨1, true, "123456"⟩]
        ⟨"IN", some ⟨0, 0⟩, 1, "123456", false, none, "", some 1000⟩ 0
        ⟨[⟨0, 1, some 0, none, true⟩], 1, []⟩ =
      .error .AlreadyClockedIn ∧
    Clinic.punch_step ⟨[⟨0, 1, some 0, none, true⟩], 1, []⟩
        ⟨[⟨1, true, "123456"⟩],
         ⟨"IN", some ⟨0, 0⟩, 1, "123456", false, none, "", some 1000⟩, 0⟩ =
      ⟨[⟨0, 1, some 0, none, true⟩], 1, []⟩ :=
  (c4_punch_state_machine [⟨1, true, "123456"⟩]
      ⟨"IN", some ⟨0, 0⟩, 1, "123456", false, none, "", some 1000⟩ 0
      ⟨[⟨0, 1, some 0, none, true⟩], 1, []⟩ ⟨1, true, "123456"⟩ none
      (by intro s hs; simp at hs; subst hs; intro _; exact ⟨rfl, rfl⟩)
      (by decide) ⟨1000, rfl, by decide⟩ rfl rfl rfl).1
    rfl ⟨⟨0, 1, some 0, none, true⟩, by simp, rfl, rfl⟩

/-- A successful run of the state-machine tail is exactly one of the two
transitions, each appending exactly one event row. -/
theorem clock_core_ok_cases {subject_id : ℕ} {action : String}
    {witness : Option ℕ} {is_proxy : Bool} {now : ℤ} {db db' : ClockDB}
    (h : clock_core subject_id action witness is_proxy now db = .ok db') :
    (action = "IN" ∧
      db' = { sessions :=
                { sid := db.next_sid, employee_id := subject_id,
                  clock_in_time := some now, clock_out_time := none,
                  is_open := true } :: db.sessions,
              next_sid := db.next_sid + 1,
              events :=
                { event_type := "IN", session_sid := db.next_sid,
                  subject_employee := subject_id,
                  witness_employee := witness, is_proxy := is_proxy,
                  note := if is_proxy then "PROXY" else "" } ::
                  db.events }) ∨
    (action ≠ "IN" ∧ ∃ o,
      db.sessions.find?
        (fun s => s.employee_id == subject_id && s.is_open) = some o ∧
      db' = { sessions := db.sessions.map fun s =>
                if s.sid = o.sid then
                  { s with clock_out_time := some now, is_open := false }
                else s,
              next_sid := db.next_sid,
              events :=
                { event_type := "OUT", session_sid := o.sid,
                  subject_employee := subject_id,
                  witness_employee := witness, is_proxy := is_proxy,
                  note := if is_proxy then "PROXY" else "" } ::
                  db.events }) := by
  unfold clock_core at h
  by_cases hact : action = "IN"
  · rw [if_pos hact] at h
    split at h
    · cases h
    · left
      injection h with h
      exact ⟨hact, h.symm⟩
  · rw [if_neg hact] at h
    rcases hfind : db.sessions.find? fun s =>
        s.employee_id == subject_id && s.is_open with _ | o
    · rw [hfind] at h; dsimp only at h; cases h
    · rw [hfind] at h
      dsimp only at h
      split at h
      · cases h
      · right
        injection h with h
        exact ⟨hact, o, hfind, h.symm⟩

/-- C5: every rejected punch leaves the store untouched, and every
accepted punch commits the session transition together with exactly one
appended event row. -/
theorem c5_punch_atomicity (env : List MEmployee) (req : PunchRequest)
    (now : ℤ) (db : ClockDB) :
    (∀ e, api_clock env req now db = .error e →
      punch_step db ⟨env, req, now⟩ = db) ∧
    (∀ db', api_clock env req now db = .ok db' →
      db'.events.length = db.events.length + 1 ∧
      ∃ ev, db'.events = ev :: db.events ∧
        ((ev.event_type = "IN" ∧ db'.next_sid = db.next_sid + 1 ∧
          ev.session_sid = db.next_sid ∧
          db'.sessions =
            { sid := db.next_sid, employee_id := ev.subject_employee,
              clock_in_time := some now, clock_out_time := none,
              is_open := true } :: db.sessions) ∨
         (ev.event_type = "OUT" ∧ db'.next_sid = db.next_sid ∧
          ∃ o, db.sessions.find?
              (fun s => s.employee_id == ev.subject_employee &&
                s.is_open) = some o ∧
            ev.session_sid = o.sid ∧
            db'.sessions = db.sessions.map fun s =>
              if s.sid = o.sid then
                { s with clock_out_time := some now, is_open := false }
              else s))) := by
  constructor
  · intro e h
    simp [punch_step, h]
  · intro db' h
    obtain ⟨subject, witness, _, hcore⟩ := api_clock_ok_core h
    rcases clock_core_ok_cases hcore with ⟨hact, rfl⟩ | ⟨hact, o, hfind, rfl⟩
    · refine ⟨by simp, _, rfl, Or.inl ⟨rfl, rfl, rfl, rfl⟩⟩
    · refine ⟨by simp, _, rfl, Or.inr ⟨rfl, rfl, o, hfind, rfl, rfl⟩⟩

/-- Witness for `c5_punch_atomicity`: the successful IN punch of one
active employee against the empty store appends exactly one event
together with the created session. -/
theorem c5_punch_atomicity_witness :
    (Clinic.api_clock [⟨1, true, "123456"⟩]
        ⟨"IN", some ⟨0, 0⟩, 1, "123456", false, none, "", some 1000⟩ 0
        emptyDB).toBool = true ∧
    ∀ db', Clinic.api_clock [⟨1, true, "123456"⟩]
        ⟨"IN", some ⟨0, 0⟩, 1, "123456", false, none, "", some 1000⟩ 0
        emptyDB = .ok db' →
      db'.events.length = emptyDB.events.length + 1 ∧
      ∃ ev, db'.events = ev :: emptyDB.events ∧
        ((ev.event_type = "IN" ∧ db'.next_sid = emptyDB.next_sid + 1 ∧
          ev.session_sid = emptyDB.next_sid ∧
          db'.sessions =
            { sid := emptyDB.next_sid, employee_id := ev.subject_employee,
              clock_in_time := some 0, clock_out_time := none,
              is_open := true } :: emptyDB.sessions) ∨
         (ev.event_type = "OUT" ∧ db'.next_sid = emptyDB.next_sid ∧
          ∃ o, emptyDB.sessions.find?
              (fun s => s.employee_id == ev.subject_employee &&
                s.is_open) = some o ∧
            ev.session_sid = o.sid ∧
            db'.sessions = emptyDB.sessions.map fun s =>
              if s.sid = o.sid then
                { s with clock_out_time := some 0, is_open := false }
              else s)) :=
  ⟨rfl,
   (c5_punch_atomicity [⟨1, true, "123456"⟩]
     ⟨"IN", some ⟨0, 0⟩, 1, "123456", false, none, "", some 1000⟩ 0
     emptyDB).2⟩

/-- C10: `token_expires_in` returns 0 on an invalid token and otherwise
the seconds left in the CURRENT server window,
`max(0, int(window_end - now))`, independent of when the token was
signed.  Concretely: a token signed at instant 0 and checked at 60 s (the
next window) is still valid and reports a full 60 seconds although it
stops validating 11 s later; a token signed at 59 s and checked at
59.5 s is cryptographically valid but reports 0 because less than one
whole second remains in the window, so `api_qr_check` reports
`valid = false` and `api_clock` rejects it as expired. -/
theorem c10_token_expires_in_semantics :
    (∀ tok now, validate_qr_token tok 70 now = false →
      token_expires_in tok 60 70 now = 0) ∧
    (∀ tok now, validate_qr_token tok 70 now = true →
      token_expires_in tok 60 70 now =
        max 0 (pyTrunc ((now / (60 * 1000) + 1) * 60 * 1000 - now)
          1000)) ∧
    (∀ tok tok' now, validate_qr_token tok 70 now = true →
      validate_qr_token tok' 70 now = true →
      token_expires_in tok 60 70 now = token_expires_in tok' 60 70 now) ∧
    (validate_qr_token (some (make_qr_token 60 0)) 70 60000 = true ∧
     token_expires_in (some (make_qr_token 60 0)) 60 70 60000 = 60 ∧
     validate_qr_token (some (make_qr_token 60 0)) 70 71000 = false) ∧
    (validate_qr_token (some (make_qr_token 60 59000)) 70 59500 = true ∧
     token_expires_in (some (make_qr_token 60 59000)) 60 70 59500 = 0 ∧
     api_qr_check_valid (some (make_qr_token 60 59000)) 59500 = false ∧
     ∀ env db (req : PunchRequest), req.action = "IN" →
       req.qr_token = some (make_qr_token 60 59000) →
       api_clock env req 59500 db = .error .TokenExpired) := by
  refine ⟨?_, ?_, ?_, ⟨by decide, by decide, by decide⟩,
    by decide, by decide, by decide, ?_⟩
  · intro tok now h
    simp [token_expires_in, h]
  · intro tok now h
    simp only [token_expires_in, h, if_true, window_meta_expires_in]
  · intro tok tok' now h h'
    simp [token_expires_in, h, h']
  · intro env db req hact hq
    unfold api_clock
    rw [if_neg (by simp [hact])]
    rw [hq]
    rw [if_pos (by decide)]

/-- Witness for `c10_token_expires_in_semantics`: the hypotheses of its
universally quantified conjuncts discharged at concrete tokens and
instants. -/
theorem c10_token_expires_in_semantics_witness :
    token_expires_in none 60 70 0 = 0 ∧
    token_expires_in (some (make_qr_token 60 0)) 60 70 30000 =
      max 0 (pyTrunc ((30000 / (60 * 1000) + 1) * 60 * 1000 - 30000)
        1000) ∧
    token_expires_in (some (make_qr_token 60 0)) 60 70 30000 =
      token_expires_in (some (make_qr_token 60 15000)) 60 70 30000 ∧
    api_clock [] ⟨"IN", some (make_qr_token 60 59000), 1, "", false,
        none, "", none⟩ 59500 emptyDB = .error .TokenExpired :=
  ⟨c10_token_expires_in_semantics.1 none 0 (by decide),
   c10_token_expires_in_semantics.2.1 (some (make_qr_token 60 0)) 30000
     (by decide),
   c10_token_expires_in_semantics.2.2.1 (some (make_qr_token 60 0))
     (some (make_qr_token 60 15000)) 30000 (by decide) (by decide),
   c10_token_expires_in_semantics.2.2.2.2.2.2.2 [] emptyDB
     ⟨"IN", some (make_qr_token 60 59000), 1, "", false, none, "", none⟩
     rfl rfl⟩

/-!  ## KPI rates
(`manager_dashboard`, `views.py` lines 392-395 and 539-541).  The Python
float arithmetic is idealised as exact rational arithmetic; `round(x, 1)`
is rounding to one decimal place with ties to even (bankers rounding),
which is the Python 3 `round`. -/

/-- Rounding to the nearest integer with ties to even. -/
def roundHalfEven (q : ℚ) : ℤ :=
  let f := q.floor
  if q - f < 1 / 2 then f
  else if 1 / 2 < q - f then f + 1
  else if 2 ∣ f then f else f + 1

/-- Python `round(q, 1)`. -/
def pyRound1 (q : ℚ) : ℚ := (roundHalfEven (q * 10) : ℚ) / 10

/-- The executable `Rat.floor` agrees with the mathematical floor. -/
theorem ratFloor_eq (q : ℚ) : q.floor = ⌊q⌋ :=
  (Rat.floor_def' q).trans Rat.floor_def.symm

/-- A dashboard rate (`views.py` lines 393-395, 539-541):
`round((count / scheduled) * 100, 1) if scheduled else 0.0`. -/
def rate (count scheduled : ℕ) : ℚ :=
  if scheduled = 0 then 0
  else pyRound1 ((count : ℚ) / (scheduled : ℚ) * 100)

/-- Lemma: `roundHalfEven` is within a half of its argument. -/
theorem roundHalfEven_dist (q : ℚ) :
    |((roundHalfEven q : ℤ) : ℚ) - q| ≤ 1 / 2 := by
  have h1 : (⌊q⌋ : ℚ) ≤ q := Int.floor_le q
  have h2 : q < (⌊q⌋ : ℚ) + 1 := Int.lt_floor_add_one q
  unfold roundHalfEven
  dsimp only
  rw [ratFloor_eq]
  split
  · rename_i h
    rw [abs_le]
    constructor <;> linarith
  · rename_i h
    push_neg at h
    split
    · rename_i h'
      push_cast
      rw [abs_le]
      constructor <;> linarith
    · rename_i h'
      push_neg at h'
      have heq : q - (⌊q⌋ : ℚ) = 1 / 2 := le_antisymm h' h
      split <;> [skip; push_cast] <;> rw [abs_le] <;>
        constructor <;> linarith

/-- C8: each reported rate is `round(count / scheduled * 100, 1)` when
any shifts are scheduled (and hence within 0.05 of the exact
percentage), and is exactly 0 when `scheduled = 0`: the guard makes a
division by zero unreachable. -/
theorem c8_rate_formula (count scheduled : ℕ) :
    (scheduled = 0 → rate count scheduled = 0) ∧
    (scheduled ≠ 0 →
      rate count scheduled =
        pyRound1 ((count : ℚ) / (scheduled : ℚ) * 100) ∧
      |rate count scheduled -
        (count : ℚ) / (scheduled : ℚ) * 100| ≤ 1 / 20) := by
  constructor
  · intro h; simp [rate, h]
  · intro h
    have hr : rate count scheduled =
        pyRound1 ((count : ℚ) / (scheduled : ℚ) * 100) := by
      simp [rate, h]
    refine ⟨hr, ?_⟩
    rw [hr]
    unfold pyRound1
    have hd := roundHalfEven_dist ((count : ℚ) / (scheduled : ℚ) * 100 * 10)
    rw [abs_le] at hd ⊢
    obtain ⟨ha, hb⟩ := hd
    constructor <;> [linarith; linarith]

/-- Witness for `c8_rate_formula` at `scheduled = 0` and at
`count = 1, scheduled = 3`. -/
theorem c8_rate_formula_witness :
    rate 7 0 = 0 ∧
    (rate 1 3 = pyRound1 ((1 : ℚ) / (3 : ℚ) * 100) ∧
      |rate 1 3 - (1 : ℚ) / (3 : ℚ) * 100| ≤ 1 / 20) :=
  ⟨(c8_rate_formula 7 0).1 rfl, (c8_rate_formula 1 3).2 (by decide)⟩

/-!  ## Weekly roster replacement
(`roster_week`, `views.py` lines 643-671).  For each employee of the
division and each day of the week, the POST handler deletes every
`ShiftAssignment` of that (employee, division, date) cell and recreates
one row per selected template id that exists among the division
templates.  Rows are compared as the tuples the claim names (employee,
division, date, template, times, status); dates are day indices.  The
table is a multiset of rows. -/

/-- A `ShiftTemplate` row (`models.py` lines 98-106). -/
structure RTemplate where
  tid : ℕ
  start_time : ℤ
  end_time : ℤ
deriving DecidableEq

/-- A `ShiftAssignment` row restricted to the compared tuple
(`models.py` lines 115-138). -/
structure RRow where
  employee_id : ℕ
  division_id : ℕ
  date : ℤ
  template_id : ℕ
  start_time : ℤ
  end_time : ℤ
  status : String
deriving DecidableEq

/-- The delete filter of one cell (`views.py` line 652):
`filter(employee=emp, division=division, date=d)`. -/
def cell_matches (division_id emp : ℕ) (d : ℤ) (r : RRow) : Bool :=
  r.employee_id == emp && r.division_id == division_id && r.date == d

/-- The rows recreated for one cell (`views.py` lines 654-669): one per
selected template id found among the division templates
(`next((t for t in templates if str(t.id) == str(tid)), None)`,
skipping misses), with times snapshotted from the template and status
`"APPROVED"` for a staff actor, else `"SUBMITTED"`. -/
def make_rows (division_id : ℕ) (templates : List RTemplate)
    (is_staff : Bool) (emp : ℕ) (d : ℤ) (selected : List ℕ) :
    List RRow :=
  selected.filterMap fun tid =>
    (templates.find? fun t => t.tid == tid).map fun tmpl =>
      { employee_id := emp, division_id := division_id, date := d,
        template_id := tmpl.tid, start_time := tmpl.start_time,
        end_time := tmpl.end_time,
        status := if is_staff then "APPROVED" else "SUBMITTED" }

/-- One (employee, day) cell of the POST loop: delete then recreate. -/
def replace_cell (division_id : ℕ) (templates : List RTemplate)
    (is_staff : Bool) (sel : ℕ → ℤ → List ℕ) (s : Multiset RRow)
    (c : ℕ × ℤ) : Multiset RRow :=
  s.filter (fun r => cell_matches division_id c.1 c.2 r = false) +
    ↑(make_rows division_id templates is_staff c.1 c.2 (sel c.1 c.2))

/-- The POST loop over a list of (employee, day) cells. -/
def run_cells (division_id : ℕ) (templates : List RTemplate)
    (is_staff : Bool) (sel : ℕ → ℤ → List ℕ)
    (cells : List (ℕ × ℤ)) (s : Multiset RRow) : Multiset RRow :=
  cells.foldl (replace_cell division_id templates is_staff sel) s

/-- Model of `replaceWeekRoster` (`views.py` lines 643-671): the nested loops
`for emp in employees: for d in days:` are the fold over the product
list. -/
def replace_week (division_id : ℕ) (templates : List RTemplate)
    (is_staff : Bool) (employees : List ℕ) (days : List ℤ)
    (sel : ℕ → ℤ → List ℕ) (s : Multiset RRow) : Multiset RRow :=
  run_cells division_id templates is_staff sel
    (employees.product days) s

/-- Every recreated row of a cell matches its own cell. -/
theorem make_rows_matches {division_id : ℕ} {templates : List RTemplate}
    {is_staff : Bool} {emp : ℕ} {d : ℤ} {selected : List ℕ} {r : RRow}
    (hr : r ∈ make_rows division_id templates is_staff emp d selected) :
    cell_matches division_id emp d r = true := by
  unfold make_rows at hr
  obtain ⟨tid, _, hfound⟩ := List.mem_filterMap.mp hr
  obtain ⟨tmpl, _, hmk⟩ := Option.map_eq_some'.mp hfound
  rw [← hmk]
  simp [cell_matches]

/-- A row matches at most one cell. -/
theorem cell_matches_unique {division_id e e' : ℕ} {d d' : ℤ} {r : RRow}
    (h : cell_matches division_id e d r = true)
    (h' : cell_matches division_id e' d' r = true) : e = e' ∧ d = d' := by
  simp only [cell_matches, Bool.and_eq_true, beq_iff_eq] at h h'
  omega

/-- Rows untouched by every remaining cell ride through the loop. -/
theorem run_cells_add_untouched (division_id : ℕ)
    (templates : List RTemplate) (is_staff : Bool)
    (sel : ℕ → ℤ → List ℕ) (cells : List (ℕ × ℤ))
    (s g : Multiset RRow)
    (hg : ∀ c ∈ cells, ∀ r ∈ g, cell_matches division_id c.1 c.2 r =
      false) :
    run_cells division_id templates is_staff sel cells (s + g) =
      run_cells division_id templates is_staff sel cells s + g := by
  induction cells generalizing s with
  | nil => rfl
  | cons c cs ih =>
    have hco : replace_cell division_id templates is_staff sel (s + g) c =
        replace_cell division_id templates is_staff sel s c + g := by
      unfold replace_cell
      rw [Multiset.filter_add]
      rw [Multiset.filter_eq_self.mpr
        (fun r hr => hg c (List.mem_cons_self _ _) r hr)]
      rw [add_right_comm]
    show run_cells division_id templates is_staff sel cs
        (replace_cell division_id templates is_staff sel (s + g) c) = _
    rw [hco]
    exact ih _ fun c' hc' r hr => hg c' (List.mem_cons_of_mem _ hc') r hr

/-- Filtering out a cell not among the remaining cells commutes with
the loop. -/
theorem filter_run_cells_comm (division_id : ℕ)
    (templates : List RTemplate) (is_staff : Bool)
    (sel : ℕ → ℤ → List ℕ) (cells : List (ℕ × ℤ)) (s : Multiset RRow)
    (e : ℕ) (d : ℤ) (hnot : (e, d) ∉ cells) :
    (run_cells division_id templates is_staff sel cells s).filter
        (fun r => cell_matches division_id e d r = false) =
      run_cells division_id templates is_staff sel cells
        (s.filter fun r => cell_matches division_id e d r = false) := by
  induction cells generalizing s with
  | nil => rfl
  | cons c cs ih =>
    have hnot' : (e, d) ∉ cs := fun h => hnot (List.mem_cons_of_mem _ h)
    have hne : c ≠ (e, d) := fun h => hnot (h ▸ List.mem_cons_self _ _)
    show (run_cells division_id templates is_staff sel cs
        (replace_cell division_id templates is_staff sel s c)).filter
        (fun r => cell_matches division_id e d r = false) =
      run_cells division_id templates is_staff sel cs
        (replace_cell division_id templates is_staff sel
          (s.filter fun r => cell_matches division_id e d r = false) c)
    rw [ih _ hnot']
    congr 1
    unfold replace_cell
    rw [Multiset.filter_add]
    rw [Multiset.filter_comm]
    congr 1
    apply Multiset.filter_eq_self.mpr
    intro r hr
    have hm := make_rows_matches (Multiset.mem_coe.mp hr)
    by_cases hmd : cell_matches division_id e d r = true
    · obtain ⟨he, hd⟩ := cell_matches_unique hm hmd
      exact absurd (Prod.ext he hd) hne
    · exact Bool.eq_false_iff.mpr hmd

/-- The loop body of a cell already present among the remaining cells
is idempotent across a second pass. -/
theorem run_cells_idem (division_id : ℕ) (templates : List RTemplate)
    (is_staff : Bool) (sel : ℕ → ℤ → List ℕ)
    (cells : List (ℕ × ℤ)) (hnd : cells.Nodup) (s : Multiset RRow) :
    run_cells division_id templates is_staff sel cells
        (run_cells division_id templates is_staff sel cells s) =
      run_cells division_id templates is_staff sel cells s := by
  induction cells generalizing s with
  | nil => rfl
  | cons c cs ih =>
    obtain ⟨hc, hcs⟩ := List.nodup_cons.mp hnd
    have hgen : ∀ c' ∈ cs, ∀ r ∈ (↑(make_rows division_id templates
        is_staff c.1 c.2 (sel c.1 c.2)) : Multiset RRow),
        cell_matches division_id c'.1 c'.2 r = false := by
      intro c' hc' r hr
      have hm := make_rows_matches (Multiset.mem_coe.mp hr)
      by_cases hmd : cell_matches division_id c'.1 c'.2 r = true
      · obtain ⟨he, hd⟩ := cell_matches_unique hm hmd
        exact absurd (Prod.ext he hd ▸ hc') hc
      · exact Bool.eq_false_iff.mpr hmd
    have hstep : ∀ u : Multiset RRow,
        run_cells division_id templates is_staff sel (c :: cs) u =
          run_cells division_id templates is_staff sel cs
            (u.filter fun r => cell_matches division_id c.1 c.2 r =
              false) +
          ↑(make_rows division_id templates is_staff c.1 c.2
            (sel c.1 c.2)) := by
      intro u
      have h1 : run_cells division_id templates is_staff sel (c :: cs) u =
          run_cells division_id templates is_staff sel cs
            (replace_cell division_id templates is_staff sel u c) := rfl
      rw [h1]
      simp only [replace_cell]
      exact run_cells_add_untouched division_id templates is_staff sel
        cs _ _ hgen
    rw [hstep s, hstep]
    have hff : ((run_cells division_id templates is_staff sel cs
          (Multiset.filter (fun r => cell_matches division_id c.1 c.2 r =
            false) s) +
        ↑(make_rows division_id templates is_staff c.1 c.2
          (sel c.1 c.2))).filter
          fun r => cell_matches division_id c.1 c.2 r = false) =
        run_cells division_id templates is_staff sel cs
          (Multiset.filter (fun r => cell_matches division_id c.1 c.2 r =
            false) s) := by
      rw [Multiset.filter_add]
      have hgen0 : Multiset.filter
          (fun r => cell_matches division_id c.1 c.2 r = false)
          (↑(make_rows division_id templates is_staff c.1 c.2
            (sel c.1 c.2)) : Multiset RRow) = 0 := by
        apply Multiset.filter_eq_nil.mpr
        intro r hr
        have hm := make_rows_matches (Multiset.mem_coe.mp hr)
        simp [hm]
      rw [hgen0, add_zero]
      rw [filter_run_cells_comm division_id templates is_staff sel cs _
        c.1 c.2 (by simpa using hc)]
      congr 1
      apply Multiset.filter_eq_self.mpr
      intro r hr
      have hp := Multiset.of_mem_filter hr
      exact hp
    rw [hff]
    rw [ih hcs]

/-- C9: `replaceWeekRoster` is idempotent: running the same selection
twice in succession by the same actor leaves exactly the same multiset
of `ShiftAssignment` tuples as running it once. -/
theorem c9_roster_replace_idempotent (division_id : ℕ)
    (templates : List RTemplate) (is_staff : Bool)
    (employees : List ℕ) (days : List ℤ) (sel : ℕ → ℤ → List ℕ)
    (s : Multiset RRow) (hemp : employees.Nodup) (hdays : days.Nodup) :
    replace_week division_id templates is_staff employees days sel
        (replace_week division_id templates is_staff employees days sel
          s) =
      replace_week division_id templates is_staff employees days sel
        s :=
  run_cells_idem division_id templates is_staff sel _
    (hemp.product hdays) s

/-- Witness for `c9_roster_replace_idempotent`: one employee, one day,
one selected template, starting from a table already holding an
unrelated row of another division. -/
theorem c9_roster_replace_idempotent_witness :
    replace_week 1 [⟨5, 32400000, 61200000⟩] true [1] [0]
        (fun _ _ => [5])
        (replace_week 1 [⟨5, 32400000, 61200000⟩] true [1] [0]
          (fun _ _ => [5]) {⟨1, 2, 0, 5, 0, 0, "APPROVED"⟩}) =
      replace_week 1 [⟨5, 32400000, 61200000⟩] true [1] [0]
        (fun _ _ => [5]) {⟨1, 2, 0, 5, 0, 0, "APPROVED"⟩} :=
  c9_roster_replace_idempotent 1 [⟨5, 32400000, 61200000⟩] true [1] [0]
    (fun _ _ => [5]) {⟨1, 2, 0, 5, 0, 0, "APPROVED"⟩}
    (by decide) (by decide)

end Clinic
